import Mathlib

/-!
Shallow embedding of the reconciliation-and-ranking pipeline of the iRacing
live-telemetry display (`index.js`), together with proofs of the behavioural
claims about it.

Modelling conventions:
* JavaScript numbers are modelled as exact rationals (`ℚ`): every IEEE-754
  double is a rational, and none of the verified properties depend on
  rounding of float arithmetic.  `Math.round` is Mathlib's `round`
  (both round half toward positive infinity), `Math.floor` is `Int.floor`.
* A JavaScript array that may be sparse or shorter than the slot count is a
  `List (Option α)`; indexing (`arr[i]`, `undefined` when out of range,
  `null` for missing entries) is `jsIdx`.
* Values whose runtime type is ambiguous in the source (the YAML-provided
  pace-car flag and lap limit) are a small dynamic-value type `JSVal`.
* `Math.exp` is kept abstract as a parameter `E : ℚ → ℚ` of the estimator:
  the result of a transcendental double operation is implementation
  defined, but every value it can return is rational, and every claim
  proved here holds for an arbitrary `E`.
-/

/-- Dynamic (YAML-sourced) JavaScript value: number, string, boolean, or
`null`/`undefined` (collapsed, since the source only ever tests them with
loose equality / truthiness, which cannot tell them apart). -/
inductive JSVal where
  | num (q : ℚ)
  | str (s : String)
  | jsBool (b : Bool)
  | undef
deriving DecidableEq, Repr

/-- Decimal-digit parse of a character list: the represented natural
number, or `none` as soon as a non-digit character appears. -/
def decStrToNat (l : List Char) : Option ℕ :=
  l.foldl (fun acc c => acc.bind (fun n =>
    if c.isDigit then some (10 * n + (c.toNat - 48)) else none)) (some 0)

/-- JavaScript `ToNumber` on the string values the roster feed produces
in the pace-car field: a decimal-digit string maps to its value, the
empty string to `0`, and anything else (signs, spaces, fractions, which
the feed does not emit here) to `NaN`, modelled as `none`, which no
number is equal to. -/
def strToNumber (s : String) : Option ℚ :=
  if s = "" then some 0 else (decStrToNat s.data).map (fun n => (n : ℚ))

/-- JavaScript loose equality `v == 1` (source line 243:
`driver.CarIsPaceCar == 1`).  A number compares directly; a string is
converted with `ToNumber`; a boolean is converted to `0`/`1`;
`null`/`undefined` are never loosely equal to a number. -/
def looseEqOne : JSVal → Bool
  | JSVal.num q => q == 1
  | JSVal.str s => strToNumber s == some 1
  | JSVal.jsBool b => b
  | JSVal.undef => false

/-- JavaScript truthiness of a `JSVal` (numbers: nonzero; strings:
nonempty; booleans: themselves; `null`/`undefined`: false). -/
def jsTruthy : JSVal → Bool
  | JSVal.num q => q != 0
  | JSVal.str s => s != ""
  | JSVal.jsBool b => b
  | JSVal.undef => false

/-- JavaScript strict inequality `v !== '32767'` (source line 179): a
non-string value is never strictly equal to a string. -/
def strictNeStr32767 : JSVal → Bool
  | JSVal.str s => s != "32767"
  | _ => true

/-- Lap-limit display value, source lines 179-181:
`(session.SessionLaps && session.SessionLaps !== '32767') ? session.SessionLaps : '∞'`. -/
def totalLapsDisplay (sessionLaps : JSVal) : JSVal :=
  if jsTruthy sessionLaps && strictNeStr32767 sessionLaps then sessionLaps
  else JSVal.str "∞"

/-- Result of `formatTime` (source lines 83-88) with the string rendering
kept at value level: either the gray dash placeholder or a
minutes/seconds pair (`mins = Math.floor(seconds / 60)`,
`secs = seconds % 60`). -/
inductive TimeFmt where
  | dashes
  | minSec (mins : ℤ) (secs : ℚ)
deriving DecidableEq, Repr

/-- Embedding of `formatTime(seconds)`, source lines 83-88.  The input is
`Option ℚ` because the per-car lap-time array entry may be `null` or
`undefined` (`seconds == null` catches both).  For a non-null, non-negative
input JavaScript computes `Math.floor(seconds / 60)` and the fmod
`seconds % 60`, which for `seconds ≥ 0` is `seconds - 60 * ⌊seconds / 60⌋`. -/
def formatTime (seconds : Option ℚ) : TimeFmt :=
  match seconds with
  | none => TimeFmt.dashes
  | some s =>
    if s < 0 then TimeFmt.dashes
    else TimeFmt.minSec ⌊s / 60⌋ (s - 60 * ⌊s / 60⌋)

/-- Result of `formatGap` (source lines 96-113) at value level: the
`Leader` marker, the gray `--` placeholder, the `+NL` lapped marker, or a
literal time gap rendered either as `+M:SS.mmm` or `+SS.mmms`. -/
inductive GapFmt where
  | leader
  | dashes
  | lappedBy (n : ℤ)
  | gapMinSec (m : ℤ) (s : ℚ)
  | gapSec (s : ℚ)
deriving DecidableEq, Repr

/-- Embedding of `formatGap(gapSeconds, position)`, source lines 96-113.
Order of the checks follows the source exactly: leader first, then the
null/negative guard, then the `>= 3600` lapped encoding with
`Math.round(gapSeconds / 3600)`, then the `>= 60` minutes rendering, then
the plain seconds rendering. -/
def formatGap (gapSeconds : Option ℚ) (position : ℤ) : GapFmt :=
  if position = 1 then GapFmt.leader
  else
    match gapSeconds with
    | none => GapFmt.dashes
    | some g =>
      if g < 0 then GapFmt.dashes
      else if 3600 ≤ g then GapFmt.lappedBy (round (g / 3600))
      else if 60 ≤ g then GapFmt.gapMinSec ⌊g / 60⌋ (g - 60 * ⌊g / 60⌋)
      else GapFmt.gapSec g

/-- Number of seconds a `GapFmt` displays as a literal time gap (`none`
for the leader/placeholder/lapped markers, which display no time). -/
def gapFmtSeconds : GapFmt → Option ℚ
  | GapFmt.leader => none
  | GapFmt.dashes => none
  | GapFmt.lappedBy _ => none
  | GapFmt.gapMinSec m s => some (60 * m + s)
  | GapFmt.gapSec s => some s

/-- Time-remaining display value (source lines 188-198) at value level:
the gray `N/A` marker, an `H:MM:SS` rendering, or an `M:SS` rendering. -/
inductive TimeRemainFmt where
  | notApplicable
  | hms (h m s : ℤ)
  | ms (m s : ℤ)
deriving DecidableEq, Repr

/-- Embedding of the `timeRemainStr` computation, source lines 188-198:
`(timeRemain && timeRemain < 604800) ? (...) : chalk.gray('N/A')`.
JavaScript truthiness makes an absent value and a literal `0` both take
the `N/A` branch. -/
def timeRemainStr (timeRemain : Option ℚ) : TimeRemainFmt :=
  match timeRemain with
  | none => TimeRemainFmt.notApplicable
  | some t =>
    if t ≠ 0 ∧ t < 604800 then
      if 0 < ⌊t / 3600⌋ then
        TimeRemainFmt.hms ⌊t / 3600⌋ ⌊(t - 3600 * ⌊t / 3600⌋) / 60⌋
          ⌊t - 60 * ⌊t / 60⌋⌋
      else TimeRemainFmt.ms ⌊(t - 3600 * ⌊t / 3600⌋) / 60⌋ ⌊t - 60 * ⌊t / 60⌋⌋
    else TimeRemainFmt.notApplicable

/-- Roster (session-info YAML) driver record, the fields read by the
per-car loop at source lines 236-271.  `CarIdx` is the slot id under
which the record sits in `driverMap` (the map construction at lines
205-208 drops entries with a null `CarIdx` and keeps at most one record
per slot id).  Optional fields carry the `??`-defaulting done at the use
site, not here. -/
structure Driver where
  CarIdx : Nat
  UserName : Option String
  CarNumber : Option String
  CarClassShortName : Option String
  IRating : Option ℤ
  CarIsPaceCar : JSVal
deriving DecidableEq, Repr

/-- Telemetry snapshot: the per-slot parallel arrays read at source lines
223-229.  An entry may be `null` and an array may be shorter than the
number of slots (indexing past the end yields `undefined`); both are
`none` through `jsIdx`. -/
structure Telemetry where
  CarIdxPosition : List (Option ℤ)
  CarIdxClassPosition : List (Option ℤ)
  CarIdxLap : List (Option ℤ)
  CarIdxLapDistPct : List (Option ℚ)
  CarIdxLastLapTime : List (Option ℚ)
  CarIdxBestLapTime : List (Option ℚ)
  CarIdxF2Time : List (Option ℚ)
  PlayerCarIdx : Option ℤ
deriving DecidableEq, Repr

/-- JavaScript array indexing `arr[i]`: `undefined` (here `none`) when
`i` is out of range, otherwise the stored entry (itself possibly null). -/
def jsIdx (arr : List (Option α)) (i : Nat) : Option α :=
  (arr.get? i).join

/-- Per-car record built by the merge loop (source lines 254-270),
mirroring the pushed object literal field by field. -/
structure Car where
  idx : Nat
  pos : ℤ
  classPos : ℤ
  name : String
  number : String
  carClass : String
  laps : ℤ
  distPct : ℚ
  lastLap : Option ℚ
  bestLap : Option ℚ
  gap : Option ℚ
  stalled : Bool
  isPlayer : Bool
  iRating : ℤ
  iRatingDelta : Option ℤ
deriving DecidableEq, Repr

/-- Construction of one `Car` from a driver record and the telemetry
arrays, source lines 249-270, given the already-extracted non-null
`distPct`.  `??`-defaults are `Option.getD`; `parseInt(driver.IRating ??
0, 10)` on the integer-valued roster field is the field itself with
default `0`. -/
def mkCar (tel : Telemetry) (playerCarIdx : ℤ) (d : Driver) (distPct : ℚ) : Car :=
  { idx := d.CarIdx
    pos := (jsIdx tel.CarIdxPosition d.CarIdx).getD 0
    classPos := (jsIdx tel.CarIdxClassPosition d.CarIdx).getD 0
    name := d.UserName.getD ("Car #" ++ toString d.CarIdx)
    number := d.CarNumber.getD (toString d.CarIdx)
    carClass := d.CarClassShortName.getD ""
    laps := (jsIdx tel.CarIdxLap d.CarIdx).getD 0
    distPct := distPct
    lastLap := jsIdx tel.CarIdxLastLapTime d.CarIdx
    bestLap := jsIdx tel.CarIdxBestLapTime d.CarIdx
    gap := jsIdx tel.CarIdxF2Time d.CarIdx
    stalled := distPct < 1/1000 && 0 < (jsIdx tel.CarIdxLap d.CarIdx).getD 0
    isPlayer := (d.CarIdx : ℤ) = playerCarIdx
    iRating := (d.IRating).getD 0
    iRatingDelta := none }

/-- Merge loop over the roster entries, source lines 236-271, with the
`seenIdx` duplicate guard threaded explicitly.  A slot already seen is
skipped; then the pace car is skipped (`driver.CarIsPaceCar == 1`,
loose equality); then a slot whose `CarIdxLapDistPct` entry is null or
absent is skipped (`if (distPct == null) continue`); otherwise a `Car`
is pushed. -/
def buildCarsAux (tel : Telemetry) (playerCarIdx : ℤ) :
    List Nat → List Driver → List Car
  | _, [] => []
  | seen, d :: rest =>
    if d.CarIdx ∈ seen then buildCarsAux tel playerCarIdx seen rest
    else if looseEqOne d.CarIsPaceCar then
      buildCarsAux tel playerCarIdx (d.CarIdx :: seen) rest
    else
      match jsIdx tel.CarIdxLapDistPct d.CarIdx with
      | none => buildCarsAux tel playerCarIdx (d.CarIdx :: seen) rest
      | some distPct =>
        mkCar tel playerCarIdx d distPct ::
          buildCarsAux tel playerCarIdx (d.CarIdx :: seen) rest

/-- Merge stage: build the candidate `Car` list from the roster
(`driverMap` entries in iteration order) and the telemetry snapshot,
with `playerCarIdx = tel.PlayerCarIdx ?? -1` (source line 220). -/
def buildCars (roster : List Driver) (tel : Telemetry) : List Car :=
  buildCarsAux tel (tel.PlayerCarIdx.getD (-1)) [] roster

/-- Progress metric of the sort fallback, source lines 278-279:
`(laps ?? 0) + (distPct ?? 0)` (both fields are non-null by
construction, so this is laps plus lap fraction). -/
def carProgress (c : Car) : ℚ := (c.laps : ℚ) + c.distPct

/-- The comparator of source lines 274-281 as a number-valued function:
negative when `a` sorts before `b`. -/
def carCmp (a b : Car) : ℚ :=
  if 0 < a.pos ∧ 0 < b.pos then ((a.pos - b.pos : ℤ) : ℚ)
  else if 0 < a.pos then -1
  else if 0 < b.pos then 1
  else carProgress b - carProgress a

/-- Boolean `a` sorts-no-later-than `b` relation induced by the
comparator (`carCmp a b <= 0`). -/
def carLE (a b : Car) : Bool := carCmp a b ≤ 0

/-- Rank stage: `cars.sort(comparator)`, source line 274.  The engine's
`Array.prototype.sort` is stable and, for a consistent comparator such
as this one, produces an order sorted with respect to
`carCmp · · ≤ 0`; it is modelled by a stable merge sort under the
induced relation. -/
def sortCars (cars : List Car) : List Car := cars.mergeSort carLE

/-- Class key used by the class-position counters, source line 288:
`car.carClass || '__default__'` (the empty string is the only falsy
string value the field can hold). -/
def classKey (c : Car) : String :=
  if c.carClass = "" then "__default__" else c.carClass

/-- Class-position recomputation walk, source lines 286-291, with the
`classCounters` object threaded explicitly as a function from class key
to count (`classCounters[cls] ?? 0` is the function value, initially the
constant `0`). -/
def assignClassPosAux (ctr : String → ℕ) : List Car → List Car
  | [] => []
  | car :: rest =>
    let cls := classKey car
    let cnt := ctr cls + 1
    { car with classPos := (cnt : ℤ) } ::
      assignClassPosAux (fun s => if s = cls then cnt else ctr s) rest

/-- Class-position recomputation over the ranked list, starting from
empty counters. -/
def assignClassPos (cars : List Car) : List Car :=
  assignClassPosAux (fun _ => 0) cars

/-- Classified subset for the rating estimator, source line 51:
`cars.filter(c => c.pos > 0 && c.iRating > 0)`. -/
def classifiedOf (cars : List Car) : List Car :=
  cars.filter (fun c => 0 < c.pos && 0 < c.iRating)

/-- Body of the estimator loop for one classified car, source lines
57-65, with `classified` and `k = 200 / n` as in the enclosing function.
The loop skips the single self pairing by object identity
(`opp === car`); its expected-score accumulator therefore equals the sum
over all of `classified` minus the car's own self term, and its
actual-score accumulator is the count over all of `classified` (the self
pairing contributes nothing because `car.pos < car.pos` is false). -/
def deltaFor (E : ℚ → ℚ) (classified : List Car) (car : Car) : ℤ :=
  let k : ℚ := 200 / (classified.length : ℚ)
  let sumExpected : ℚ :=
    (classified.map (fun opp =>
        1 / (1 + E (((opp.iRating - car.iRating : ℤ) : ℚ) / 1500)))).sum
      - 1 / (1 + E (((car.iRating - car.iRating : ℤ) : ℚ) / 1500))
  let sumActual : ℚ :=
    ((classified.filter (fun opp => car.pos < opp.pos)).length : ℚ)
  round ((sumActual - sumExpected) * k)

/-- Estimate stage, `calcIRatingDeltas(cars)`, source lines 50-67,
parametric in the platform's `Math.exp` (`E`).  The source walks
`classified` (whose elements alias elements of `cars`) and mutates each
classified car in place; modelled as a map over `cars` that updates
exactly the cars satisfying the classification predicate, each with the
delta of the loop body `deltaFor`. -/
def calcIRatingDeltas (E : ℚ → ℚ) (cars : List Car) : List Car :=
  let classified := classifiedOf cars
  if classified.length < 2 then cars
  else
    cars.map (fun car =>
      if 0 < car.pos ∧ 0 < car.iRating then
        { car with iRatingDelta := some (deltaFor E classified car) }
      else car)

/-- Modelled from the spec: the Summarize flag-priority input.  No
flag-handling code ships in `src/index.js` (the README documents the flag
banners of the header, but the implementation is absent from the source
tree), so the bitmask of simultaneously-active flag conditions is
modelled as a record of booleans, one per condition named by the spec. -/
structure FlagBits where
  finish : Bool
  red : Bool
  caution : Bool
  cautionWaving : Bool
  yellow : Bool
  yellowWaving : Bool
  oneLapToGreen : Bool
  white : Bool
  green : Bool
  startGo : Bool
deriving DecidableEq, Repr

/-- Displayed flag condition, one per priority tier of the spec, plus a
quiescent value when no modelled bit is set. -/
inductive FlagCond where
  | finishCond
  | stoppedCond
  | cautionCond
  | oneToGreenCond
  | finalLapCond
  | greenCond
  | quiet
deriving DecidableEq, Repr

/-- Modelled from the spec: resolution of a flag bitmask to the single
displayed condition, by the strict priority order finish > stopped(red) >
caution-family (full-course caution, caution-waving, yellow,
yellow-waving) > one-lap-to-green > final-lap(white) > green/start. -/
def resolveFlag (f : FlagBits) : FlagCond :=
  if f.finish then FlagCond.finishCond
  else if f.red then FlagCond.stoppedCond
  else if f.caution || f.cautionWaving || f.yellow || f.yellowWaving then
    FlagCond.cautionCond
  else if f.oneLapToGreen then FlagCond.oneToGreenCond
  else if f.white then FlagCond.finalLapCond
  else if f.green || f.startGo then FlagCond.greenCond
  else FlagCond.quiet



/-- Concrete two-car fixture for instantiating the estimator theorems:
both cars classified, ratings 2000 and 1800, positions 1 and 2. -/
def fixtureCarA : Car :=
  { idx := 0, pos := 1, classPos := 0, name := "Ada", number := "11",
    carClass := "GT3", laps := 10, distPct := 0, lastLap := none,
    bestLap := none, gap := none, stalled := false, isPlayer := false,
    iRating := 2000, iRatingDelta := none }

/-- Second car of the estimator fixture. -/
def fixtureCarB : Car :=
  { idx := 1, pos := 2, classPos := 0, name := "Ben", number := "22",
    carClass := "GT3", laps := 10, distPct := 1, lastLap := none,
    bestLap := none, gap := none, stalled := false, isPlayer := false,
    iRating := 1800, iRatingDelta := none }

/-- The estimator fixture field. -/
def fixtureField : List Car := [fixtureCarA, fixtureCarB]

/-- Constant stand-in for `Math.exp` in fixture computations (the
estimator theorems hold for an arbitrary exponential map). -/
def fixtureExp : ℚ → ℚ := fun _ => 1

/-- Pairwise order property the Rank stage is claimed to establish:
positioned cars are mutually non-decreasing in `overallPosition`, no
positioned car follows an unpositioned one, and unpositioned cars are
mutually descending in progress (`lapsCompleted + lapFraction`). -/
def rankOrderOK (a b : Car) : Prop :=
  (0 < a.pos → 0 < b.pos → a.pos ≤ b.pos) ∧
  (0 < b.pos → 0 < a.pos) ∧
  (a.pos ≤ 0 → b.pos ≤ 0 → carProgress b ≤ carProgress a)

/-- C9: a session-time-remaining value of exactly 0, or an absent value,
is surfaced as the not-applicable marker rather than a literal zero
duration, even though 0 is below the one-week (604800 seconds) sentinel
threshold. -/
theorem timeRemainStr_zero_and_absent_na :
    timeRemainStr (some 0) = TimeRemainFmt.notApplicable ∧
    timeRemainStr none = TimeRemainFmt.notApplicable ∧
    (0 : ℚ) < 604800 := by
  refine ⟨by simp [timeRemainStr], rfl, by norm_num⟩

/-- C6 (code bug): the lap-limit guard only filters the string form of
the sentinel (`session.SessionLaps !== '32767'` is a strict comparison
against a string), so a numeric `SessionLaps = 32767` is surfaced as the
literal sentinel and not as the unlimited marker, while the string form
and a non-sentinel value behave as documented. -/
theorem totalLapsDisplay_numeric_sentinel_bug :
    totalLapsDisplay (JSVal.num 32767) = JSVal.num 32767 ∧
    totalLapsDisplay (JSVal.num 32767) ≠ JSVal.str "∞" ∧
    totalLapsDisplay (JSVal.str "32767") = JSVal.str "∞" ∧
    totalLapsDisplay (JSVal.num 25) = JSVal.num 25 := by
  refine ⟨rfl, ?_, ?_, rfl⟩
  · intro h
    exact JSVal.noConfusion h
  · simp [totalLapsDisplay, jsTruthy, strictNeStr32767]

/-- C10: the lap-time formatter returns the dash placeholder for a
null/absent or negative input (including the `-1` no-lap-yet sentinel)
and a minutes/seconds rendering for every non-negative input, the
rendering denoting exactly the input number of seconds. -/
theorem formatTime_placeholder_and_minsec (s : ℚ) :
    formatTime none = TimeFmt.dashes ∧
    (s < 0 → formatTime (some s) = TimeFmt.dashes) ∧
    (0 ≤ s → formatTime (some s) = TimeFmt.minSec ⌊s / 60⌋ (s - 60 * ⌊s / 60⌋) ∧
      60 * ((⌊s / 60⌋ : ℤ) : ℚ) + (s - 60 * ⌊s / 60⌋) = s) := by
  refine ⟨rfl, fun h => by simp [formatTime, h], fun h => ⟨?_, by ring⟩⟩
  simp [formatTime, not_lt.2 h]

/-- Concrete instantiation of `formatTime_placeholder_and_minsec`: 125
seconds renders as 2 minutes 5 seconds, and the `-1` sentinel renders as
the dash placeholder. -/
theorem formatTime_placeholder_and_minsec_witness :
    formatTime (some 125) = TimeFmt.minSec 2 5 ∧
    formatTime (some (-1)) = TimeFmt.dashes := by
  constructor
  · have h := ((formatTime_placeholder_and_minsec 125).2.2 (by norm_num)).1
    rw [h]
    congr 1 <;> norm_num
  · exact (formatTime_placeholder_and_minsec (-1)).2.1 (by norm_num)

/-- C7: the gap formatter yields the leader marker whenever the position
is 1 regardless of the gap value; otherwise a gap at or above 3600
seconds yields the lapped-by marker with `round(gap / 3600)` laps, and a
gap in `[0, 3600)` yields a rendering denoting exactly the literal gap
in seconds. -/
theorem formatGap_interpretation (gv : Option ℚ) (g : ℚ) (p : ℤ) :
    (p = 1 → formatGap gv p = GapFmt.leader) ∧
    (p ≠ 1 → 3600 ≤ g → formatGap (some g) p = GapFmt.lappedBy (round (g / 3600))) ∧
    (p ≠ 1 → 0 ≤ g → g < 3600 → gapFmtSeconds (formatGap (some g) p) = some g) := by
  refine ⟨fun h => by simp [formatGap, h], fun hp hg => ?_, fun hp h0 h36 => ?_⟩
  · have hneg : ¬ g < 0 := by linarith
    simp [formatGap, hp, hneg, hg]
  · have hneg : ¬ g < 0 := not_lt.2 h0
    have h36' : ¬ 3600 ≤ g := not_le.2 h36
    by_cases h60 : 60 ≤ g
    · simp [formatGap, hp, hneg, h36', h60, gapFmtSeconds]
    · simp [formatGap, hp, hneg, h36', h60, gapFmtSeconds]

/-- Concrete instantiation of `formatGap_interpretation`: gap 3650 at
position 2 shows lapped-by-1, gap 45.2 at position 2 denotes the literal
45.2 seconds, and position 1 shows the leader marker regardless of a
3650-second gap. -/
theorem formatGap_interpretation_witness :
    formatGap (some 3650) 2 = GapFmt.lappedBy 1 ∧
    gapFmtSeconds (formatGap (some (226/5)) 2) = some (226/5) ∧
    formatGap (some 3650) 1 = GapFmt.leader := by
  refine ⟨?_, ?_, ?_⟩
  · have h := (formatGap_interpretation (some 3650) 3650 2).2.1 (by decide) (by norm_num)
    rw [h]
    norm_num [round_eq]
  · exact (formatGap_interpretation (some (226/5)) (226/5) 2).2.2 (by decide)
      (by norm_num) (by norm_num)
  · exact (formatGap_interpretation (some 3650) 3650 1).1 rfl

/-- C5: the flag bitmask resolves to exactly one displayed condition by
the strict priority order finish > stopped(red) > caution-family >
one-lap-to-green > final-lap(white) > green/start: each condition is
displayed exactly when its bit tier is active and every higher tier is
inactive; in particular a bitmask with the red bit set never resolves to
green, and one with red and green set (and no finish) resolves to the
stopped condition. -/
theorem resolveFlag_strict_priority (f : FlagBits) :
    (resolveFlag f = FlagCond.finishCond ↔ f.finish = true) ∧
    (resolveFlag f = FlagCond.stoppedCond ↔ (f.finish = false ∧ f.red = true)) ∧
    (resolveFlag f = FlagCond.cautionCond ↔
      (f.finish = false ∧ f.red = false ∧
        (f.caution || f.cautionWaving || f.yellow || f.yellowWaving) = true)) ∧
    (resolveFlag f = FlagCond.oneToGreenCond ↔
      (f.finish = false ∧ f.red = false ∧ f.caution = false ∧ f.cautionWaving = false ∧
        f.yellow = false ∧ f.yellowWaving = false ∧ f.oneLapToGreen = true)) ∧
    (resolveFlag f = FlagCond.finalLapCond ↔
      (f.finish = false ∧ f.red = false ∧ f.caution = false ∧ f.cautionWaving = false ∧
        f.yellow = false ∧ f.yellowWaving = false ∧ f.oneLapToGreen = false ∧
        f.white = true)) ∧
    (resolveFlag f = FlagCond.greenCond ↔
      (f.finish = false ∧ f.red = false ∧ f.caution = false ∧ f.cautionWaving = false ∧
        f.yellow = false ∧ f.yellowWaving = false ∧ f.oneLapToGreen = false ∧
        f.white = false ∧ (f.green || f.startGo) = true)) ∧
    (f.red = true → resolveFlag f ≠ FlagCond.greenCond) ∧
    (f.red = true → f.green = true → f.finish = false →
      resolveFlag f = FlagCond.stoppedCond) := by
  rcases f with ⟨b1, b2, b3, b4, b5, b6, b7, b8, b9, b10⟩
  revert b1 b2 b3 b4 b5 b6 b7 b8 b9 b10
  decide

/-- Concrete instantiation of `resolveFlag_strict_priority`: the bitmask
with exactly the red and green bits set resolves to the stopped
condition. -/
theorem resolveFlag_strict_priority_witness :
    resolveFlag
      { finish := false, red := true, caution := false, cautionWaving := false,
        yellow := false, yellowWaving := false, oneLapToGreen := false,
        white := false, green := true, startGo := false } =
      FlagCond.stoppedCond :=
  (resolveFlag_strict_priority _).2.2.2.2.2.2.2 rfl rfl rfl

/-- C8: when fewer than two cars are classified (positive position and
positive rating), the Estimate stage changes nothing, so rating deltas
that start null stay null; and the Merge stage builds every car with a
null rating delta, so in the pipeline every delta stays null. -/
theorem calcIRatingDeltas_skips_when_lt_two (E : ℚ → ℚ) (cars : List Car)
    (h : (classifiedOf cars).length < 2)
    (h0 : ∀ c ∈ cars, c.iRatingDelta = none) :
    calcIRatingDeltas E cars = cars ∧
    (∀ c ∈ calcIRatingDeltas E cars, c.iRatingDelta = none) := by
  have hid : calcIRatingDeltas E cars = cars := by
    simp only [calcIRatingDeltas, if_pos h]
  exact ⟨hid, by rw [hid]; exact h0⟩

/-- Concrete instantiation of `calcIRatingDeltas_skips_when_lt_two`: a
field with a single classified car is returned unchanged, delta null. -/
theorem calcIRatingDeltas_skips_when_lt_two_witness :
    calcIRatingDeltas (fun _ => 1)
      [{ idx := 0, pos := 1, classPos := 0, name := "A", number := "0",
         carClass := "", laps := 0, distPct := 0, lastLap := none,
         bestLap := none, gap := none, stalled := false, isPlayer := false,
         iRating := 2000, iRatingDelta := none }] =
      [{ idx := 0, pos := 1, classPos := 0, name := "A", number := "0",
         carClass := "", laps := 0, distPct := 0, lastLap := none,
         bestLap := none, gap := none, stalled := false, isPlayer := false,
         iRating := 2000, iRatingDelta := none }] :=
  (calcIRatingDeltas_skips_when_lt_two (fun _ => 1) _ (by decide)
    (by intro c hc; simp only [List.mem_singleton] at hc; rw [hc])).1

/-- Characterisation of the comparator-induced order: `a` sorts no later
than `b` iff both are positioned with `a.pos ≤ b.pos`, or only `a` is
positioned, or neither is and `b`'s progress does not exceed `a`'s. -/
theorem carLE_iff (a b : Car) : carLE a b = true ↔
    ((0 < a.pos ∧ 0 < b.pos ∧ a.pos ≤ b.pos) ∨
     (0 < a.pos ∧ b.pos ≤ 0) ∨
     (a.pos ≤ 0 ∧ b.pos ≤ 0 ∧ carProgress b ≤ carProgress a)) := by
  unfold carLE carCmp
  by_cases h1 : 0 < a.pos ∧ 0 < b.pos
  · rw [if_pos h1, decide_eq_true_eq]
    have hcast : ((a.pos - b.pos : ℤ) : ℚ) ≤ 0 ↔ a.pos ≤ b.pos := by
      constructor
      · intro h
        have : (a.pos - b.pos : ℤ) ≤ 0 := by exact_mod_cast h
        omega
      · intro h
        have : (a.pos - b.pos : ℤ) ≤ 0 := by omega
        exact_mod_cast this
    rw [hcast]
    constructor
    · intro h
      exact Or.inl ⟨h1.1, h1.2, h⟩
    · rintro (⟨_, _, h⟩ | ⟨_, hb⟩ | ⟨ha, _, _⟩)
      · exact h
      · omega
      · omega
  · rw [if_neg h1]
    by_cases h2 : 0 < a.pos
    · have hb : ¬ 0 < b.pos := fun hb => h1 ⟨h2, hb⟩
      rw [if_pos h2]
      simp only [decide_eq_true_eq]
      constructor
      · intro _
        exact Or.inr (Or.inl ⟨h2, by omega⟩)
      · intro _
        norm_num
    · rw [if_neg h2]
      by_cases h3 : 0 < b.pos
      · rw [if_pos h3]
        simp only [decide_eq_true_eq]
        constructor
        · intro h
          norm_num at h
        · rintro (⟨ha, _, _⟩ | ⟨ha, _⟩ | ⟨_, hb, _⟩)
          · omega
          · omega
          · omega
      · rw [if_neg h3, decide_eq_true_eq, sub_nonpos]
        constructor
        · intro h
          exact Or.inr (Or.inr ⟨by omega, by omega, h⟩)
        · rintro (⟨ha, _, _⟩ | ⟨ha, _⟩ | ⟨_, _, h⟩)
          · omega
          · omega
          · exact h

/-- Transitivity of the comparator-induced order (the comparator is
consistent, so the engine sort is a genuine sort for it). -/
theorem carLE_trans (a b c : Car) (hab : carLE a b = true) (hbc : carLE b c = true) :
    carLE a c = true := by
  rw [carLE_iff] at hab hbc ⊢
  rcases hab with ⟨ha, hb, h₁⟩ | ⟨ha, hb⟩ | ⟨ha, hb, h₁⟩ <;>
    rcases hbc with ⟨hb', hc, h₂⟩ | ⟨hb', hc⟩ | ⟨hb', hc, h₂⟩
  · exact Or.inl ⟨ha, hc, le_trans h₁ h₂⟩
  · exact Or.inr (Or.inl ⟨ha, hc⟩)
  · omega
  · omega
  · omega
  · exact Or.inr (Or.inl ⟨ha, hc⟩)
  · omega
  · omega
  · exact Or.inr (Or.inr ⟨ha, hc, le_trans h₂ h₁⟩)

/-- Totality of the comparator-induced order. -/
theorem carLE_total (a b : Car) : (carLE a b || carLE b a) = true := by
  rw [Bool.or_eq_true, carLE_iff, carLE_iff]
  by_cases ha : 0 < a.pos <;> by_cases hb : 0 < b.pos
  · rcases le_total a.pos b.pos with h | h
    · exact Or.inl (Or.inl ⟨ha, hb, h⟩)
    · exact Or.inr (Or.inl ⟨hb, ha, h⟩)
  · exact Or.inl (Or.inr (Or.inl ⟨ha, by omega⟩))
  · exact Or.inr (Or.inr (Or.inl ⟨hb, by omega⟩))
  · rcases le_total (carProgress a) (carProgress b) with h | h
    · exact Or.inr (Or.inr (Or.inr ⟨by omega, by omega, h⟩))
    · exact Or.inl (Or.inr (Or.inr ⟨by omega, by omega, h⟩))

/-- C3: after the Rank stage the sequence satisfies, pairwise in order:
non-decreasing `overallPosition` among positively-positioned cars, no
positioned car after an unpositioned one (so all unpositioned cars sort
last), and descending `lapsCompleted + lapFraction` among unpositioned
cars; moreover the stage is a permutation of its input. -/
theorem sortCars_rank_order (cars : List Car) :
    (sortCars cars).Pairwise rankOrderOK ∧ (sortCars cars).Perm cars := by
  constructor
  · have hs := List.sorted_mergeSort carLE_trans carLE_total cars
    refine hs.imp ?_
    intro a b hab
    rw [carLE_iff] at hab
    rcases hab with ⟨ha, hb, h⟩ | ⟨ha, hb⟩ | ⟨ha, hb, h⟩
    · exact ⟨fun _ _ => h, fun _ => ha, fun h' => by omega⟩
    · exact ⟨fun _ h' => by omega, fun h' => by omega, fun _ h' => by omega⟩
    · exact ⟨fun h' => by omega, fun h' => by omega, fun _ _ => h⟩
  · exact List.mergeSort_perm cars carLE

/-- Concrete instantiation of `sortCars_rank_order` on a two-car field
(an unpositioned car listed before the positioned one). -/
theorem sortCars_rank_order_witness :
    List.Pairwise rankOrderOK (sortCars
      [{ idx := 0, pos := 0, classPos := 0, name := "A", number := "0",
         carClass := "", laps := 3, distPct := 1/2, lastLap := none,
         bestLap := none, gap := none, stalled := false, isPlayer := false,
         iRating := 0, iRatingDelta := none },
       { idx := 1, pos := 1, classPos := 0, name := "B", number := "1",
         carClass := "", laps := 3, distPct := 3/4, lastLap := none,
         bestLap := none, gap := none, stalled := false, isPlayer := false,
         iRating := 0, iRatingDelta := none }]) :=
  (sortCars_rank_order _).1

/-- Recomputing `classPos` does not change a car's class key. -/
theorem classKey_set_classPos (car : Car) (v : ℤ) :
    classKey { car with classPos := v } = classKey car := rfl

/-- Walk invariant of the class-position counters: starting from any
counter state, the positions assigned to the cars of class `cls` are the
consecutive integers starting just above the counter's current value. -/
theorem assignClassPosAux_filter_map (cls : String) (cars : List Car) :
    ∀ ctr : String → ℕ,
      ((assignClassPosAux ctr cars).filter (fun c => classKey c = cls)).map Car.classPos =
        (List.range' (ctr cls + 1)
          ((cars.filter (fun c => classKey c = cls)).length)).map (fun n => (n : ℤ)) := by
  induction cars with
  | nil => intro ctr; rfl
  | cons car rest ih =>
    intro ctr
    simp only [assignClassPosAux, List.filter_cons]
    by_cases hc : classKey car = cls
    · subst hc
      rw [if_pos (by simp [classKey_set_classPos]), if_pos (by simp)]
      simp only [List.map_cons, List.length_cons, List.range'_succ]
      rw [ih]
      simp
    · rw [if_neg (by simp [classKey_set_classPos, hc]), if_neg (by simpa using hc)]
      rw [ih]
      have h2 : ¬ cls = classKey car := fun h => hc h.symm
      simp [h2]

/-- C4: for every car list and class label, the recomputed class
positions of that class (the empty label being its own synthetic class,
via `classKey`) form, in ranked order, exactly the contiguous sequence
`1, 2, ..., k` where `k` is the number of cars of the class — with no
gaps or duplicates and no dependence on source-provided class positions. -/
theorem assignClassPos_contiguous (cars : List Car) (cls : String) :
    ((assignClassPos cars).filter (fun c => classKey c = cls)).map Car.classPos =
      (List.range' 1
        ((cars.filter (fun c => classKey c = cls)).length)).map (fun n => (n : ℤ)) :=
  assignClassPosAux_filter_map cls cars (fun _ => 0)

/-- Merge-loop invariant: as long as no upcoming slot id was already
seen and the upcoming slot ids are distinct (both guaranteed by
iterating the entries of `driverMap`, a keyed object), the slot ids of
the produced cars are exactly those of the roster entries that are not
the pace car and have a non-null lap-fraction telemetry entry. -/
theorem buildCarsAux_map_idx (tel : Telemetry) (pci : ℤ) (roster : List Driver) :
    ∀ seen : List Nat, (∀ d ∈ roster, d.CarIdx ∉ seen) →
      (roster.map Driver.CarIdx).Nodup →
      (buildCarsAux tel pci seen roster).map Car.idx =
        (roster.filter (fun d => !looseEqOne d.CarIsPaceCar &&
          (jsIdx tel.CarIdxLapDistPct d.CarIdx).isSome)).map Driver.CarIdx := by
  induction roster with
  | nil => intro seen _ _; rfl
  | cons d rest ih =>
    intro seen hseen hnd
    have hd : d.CarIdx ∉ seen := hseen d (List.mem_cons_self d rest)
    rw [List.map_cons, List.nodup_cons] at hnd
    have hnd' := hnd.2
    have hdrest : d.CarIdx ∉ rest.map Driver.CarIdx := hnd.1
    have hseen' : ∀ x ∈ rest, x.CarIdx ∉ (d.CarIdx :: seen) := by
      intro x hx
      simp only [List.mem_cons]
      push_neg
      refine ⟨fun hEq => hdrest ?_, hseen x (List.mem_cons_of_mem d hx)⟩
      rw [← hEq]
      exact List.mem_map_of_mem Driver.CarIdx hx
    simp only [buildCarsAux, if_neg hd, List.filter_cons]
    by_cases hpace : looseEqOne d.CarIsPaceCar
    · rw [if_pos hpace, if_neg (by simp [hpace])]
      exact ih (d.CarIdx :: seen) hseen' hnd'
    · rw [if_neg hpace]
      cases hjs : jsIdx tel.CarIdxLapDistPct d.CarIdx with
      | none =>
        rw [if_neg (by simp [hjs])]
        exact ih (d.CarIdx :: seen) hseen' hnd'
      | some q =>
        rw [if_pos (by simp [hjs, hpace])]
        simp only [List.map_cons]
        rw [ih (d.CarIdx :: seen) hseen' hnd']
        rfl

/-- C2: given distinct roster slot ids (guaranteed upstream because the
roster is iterated as the entries of a map keyed by slot id), the cars
produced by the Merge stage are exactly the roster entries whose
pace-car indicator is not loosely equal to 1 and whose lap-fraction
telemetry entry is present; entries with no lap-fraction telemetry are
excluded, not defaulted.  Loose equality accepts numeric 1, string "1"
and boolean true. -/
theorem buildCars_membership_exact (roster : List Driver) (tel : Telemetry)
    (hnd : (roster.map Driver.CarIdx).Nodup) :
    (buildCars roster tel).map Car.idx =
      (roster.filter (fun d => !looseEqOne d.CarIsPaceCar &&
        (jsIdx tel.CarIdxLapDistPct d.CarIdx).isSome)).map Driver.CarIdx ∧
    looseEqOne (JSVal.num 1) = true ∧
    looseEqOne (JSVal.str "1") = true ∧
    looseEqOne (JSVal.jsBool true) = true := by
  refine ⟨buildCarsAux_map_idx tel _ roster [] (by simp) hnd, rfl, ?_, rfl⟩
  decide

/-- Concrete instantiation of `buildCars_membership_exact`: of a
three-entry roster — a pace car, a car with lap-fraction telemetry, and
a car without — only the second produces a record. -/
theorem buildCars_membership_exact_witness :
    (buildCars
      [{ CarIdx := 0, UserName := some "Pace", CarNumber := some "0",
         CarClassShortName := none, IRating := none, CarIsPaceCar := JSVal.num 1 },
       { CarIdx := 1, UserName := some "Ada", CarNumber := some "11",
         CarClassShortName := some "GT3", IRating := some 2000,
         CarIsPaceCar := JSVal.num 0 },
       { CarIdx := 2, UserName := some "Ben", CarNumber := some "22",
         CarClassShortName := some "GT3", IRating := some 1800,
         CarIsPaceCar := JSVal.num 0 }]
      { CarIdxPosition := [some 1, some 2]
        CarIdxClassPosition := [some 1, some 2]
        CarIdxLap := [some 3, some 3]
        CarIdxLapDistPct := [none, some (1/2)]
        CarIdxLastLapTime := []
        CarIdxBestLapTime := []
        CarIdxF2Time := []
        PlayerCarIdx := some 1 }).map Car.idx = [1] := by
  refine Eq.trans ((buildCars_membership_exact _ _ ?_).1) ?_
  · decide
  · rfl

/-- C1: with at least two classified cars (positive position, positive
rating), the Estimate stage maps each classified car `A` to `A` with
`ratingDelta = round((actualScore − expectedScore) × (200 / n))`, where
`n` is the number of classified cars, `expectedScore` sums
`1 / (1 + E((rating_B − rating_A) / 1500))` over every other classified
car `B`, and `actualScore` counts the classified cars whose position
number is greater than `A`'s (the cars `A` finished ahead of), for any
exponential map `E`. -/
theorem calcIRatingDeltas_assigns_formula (E : ℚ → ℚ) (cars : List Car)
    (i : ℕ) (hi : i < cars.length)
    (hpos : 0 < (cars.get ⟨i, hi⟩).pos)
    (hrat : 0 < (cars.get ⟨i, hi⟩).iRating)
    (hn : 2 ≤ (classifiedOf cars).length) :
    (calcIRatingDeltas E cars).get? i = some
      { cars.get ⟨i, hi⟩ with
        iRatingDelta := some (round
          ((((((classifiedOf cars).filter
                (fun b => (cars.get ⟨i, hi⟩).pos < b.pos)).length : ℚ)) -
            (((classifiedOf cars).erase (cars.get ⟨i, hi⟩)).map
              (fun b => 1 / (1 + E
                (((b.iRating - (cars.get ⟨i, hi⟩).iRating : ℤ) : ℚ) / 1500)))).sum) *
           (200 / ((classifiedOf cars).length : ℚ)))) } := by
  have hn' : ¬ (classifiedOf cars).length < 2 := by omega
  have hmem : cars.get ⟨i, hi⟩ ∈ classifiedOf cars := by
    apply List.mem_filter.mpr
    refine ⟨List.get_mem cars i hi, ?_⟩
    simp only [Bool.and_eq_true, decide_eq_true_eq]
    exact ⟨hpos, hrat⟩
  simp only [calcIRatingDeltas, if_neg hn']
  rw [List.get?_map, List.get?_eq_get hi]
  simp only [Option.map_some']
  rw [if_pos ⟨hpos, hrat⟩]
  simp only [Option.some.injEq, Car.mk.injEq, and_true, true_and]
  simp only [deltaFor]
  congr 1
  have hperm : (classifiedOf cars).Perm
      (cars.get ⟨i, hi⟩ :: (classifiedOf cars).erase (cars.get ⟨i, hi⟩)) :=
    List.perm_cons_erase hmem
  have hsum : ((classifiedOf cars).map (fun b => 1 / (1 + E
        (((b.iRating - (cars.get ⟨i, hi⟩).iRating : ℤ) : ℚ) / 1500)))).sum =
      1 / (1 + E ((((cars.get ⟨i, hi⟩).iRating - (cars.get ⟨i, hi⟩).iRating : ℤ) : ℚ)
        / 1500)) +
      (((classifiedOf cars).erase (cars.get ⟨i, hi⟩)).map (fun b => 1 / (1 + E
        (((b.iRating - (cars.get ⟨i, hi⟩).iRating : ℤ) : ℚ) / 1500)))).sum := by
    rw [List.Perm.sum_eq (hperm.map _)]
    simp
  rw [hsum]
  ring

/-- Concrete instantiation of `calcIRatingDeltas_assigns_formula` on the
two-car fixture: the winner (rating 2000, position 1) gains
`round((1 − 1/2) × 100) = 50` rating points under the constant fixture
exponential. -/
theorem calcIRatingDeltas_assigns_formula_witness :
    ((calcIRatingDeltas fixtureExp fixtureField).get? 0).map Car.iRatingDelta =
      some (some 50) := by
  have h := calcIRatingDeltas_assigns_formula fixtureExp fixtureField 0 (by decide)
      (by decide) (by decide) (by decide)
  rw [h]
  simp only [Option.map_some']
  have h1 : classifiedOf fixtureField = [fixtureCarA, fixtureCarB] := by decide
  have h2 : fixtureField.get ⟨0, by decide⟩ = fixtureCarA := by decide
  rw [h1, h2]
  have h3 : [fixtureCarA, fixtureCarB].filter (fun b => fixtureCarA.pos < b.pos) =
      [fixtureCarB] := by decide
  have h4 : [fixtureCarA, fixtureCarB].erase fixtureCarA = [fixtureCarB] := by decide
  rw [h3, h4]
  norm_num [fixtureCarA, fixtureCarB, fixtureExp, round_eq]
